import Mathlib

/-!
Shallow embedding of the judging pipeline of the OJ-Project repository
(`src/main/submit/services/executor.py`, together with the data model in
`src/main/submit/models.py` and `src/main/problems/models.py`).

The pipeline is `CodeExecutor.execute_all`: it marks the submission as
running, compiles the source when the language requires it, runs the
program once per test case (ordered by the test case `order` field),
persists one `SubmissionTestResult` per executed test, folds the per-test
outcomes into a final verdict, and updates the problem's attempt/solve
counters.  External effects (the compiler subprocess, the child process
run for each test, the wall clock, and unexpected infrastructure
exceptions) are modelled by an explicit environment `Env`; the Django ORM
is modelled by an explicit database state `DB` threaded through the
functions.
-/

namespace OJ

/-- `SubmissionStatus` from `submit/models.py`: the verdict taxonomy.
Wire values: `pending`, `running`, `accepted`, `wrong_answer`, `tle`,
`rte`, `ce`, `mle`. -/
inductive SubmissionStatus where
  | pending
  | running
  | accepted
  | wrong_answer
  | tle
  | rte
  | ce
  | mle
deriving DecidableEq, Repr

/-- `LanguageChoice` from `submit/models.py`: the four supported language
identifiers (`py`, `cpp`, `c`, `java`).  `submit/views.py` validates the
posted language against this set before a `Submission` row is created, so
the executor only ever sees these four values. -/
inductive Lang where
  | py
  | cpp
  | c
  | java
deriving DecidableEq, Repr

/-- `TestCase` from `problems/models.py` (the fields the pipeline reads,
plus the primary key). -/
structure TestCase where
  id : Nat
  problem : Nat
  input_data : String
  expected_output : String
  is_sample : Bool
  order : Nat
deriving DecidableEq, Repr

/-- `Problem` from `problems/models.py` (the fields the pipeline reads and
writes).  `time_limit` is a float in seconds in the source; it is modelled
here in milliseconds (`time_limit_ms = time_limit * 1000`). -/
structure Problem where
  id : Nat
  time_limit_ms : Nat
  solve_count : Nat
  attempt_count : Nat
deriving DecidableEq, Repr

/-- `Submission` from `submit/models.py` (the fields the pipeline reads
and writes).  `judged_at := none` models a NULL `judged_at`. -/
structure Submission where
  id : Nat
  user : Nat
  problem : Nat
  language : Lang
  code : String
  status : SubmissionStatus
  runtime_ms : Nat
  error_message : String
  tests_passed : Nat
  tests_total : Nat
  judged_at : Option Nat
deriving DecidableEq, Repr

/-- `SubmissionTestResult` from `submit/models.py`: one row per executed
test case. -/
structure SubmissionTestResult where
  submission : Nat
  test_case : Nat
  status : SubmissionStatus
  actual_output : String
  runtime_ms : Nat
  memory_kb : Nat
  error_message : String
deriving DecidableEq, Repr

/-- `ExecutionResult` dataclass from `executor.py`. -/
structure ExecutionResult where
  status : SubmissionStatus
  actual_output : String := ""
  error_message : String := ""
  runtime_ms : Nat := 0
  memory_kb : Nat := 0
deriving DecidableEq, Repr

/-- Outcome of one `subprocess.run` call, as observed by the executor:
the child completed within the timeout (exit code, captured stdout and
stderr, wall-clock runtime in ms), the timeout expired
(`subprocess.TimeoutExpired`), or the launch itself raised. -/
inductive ProcResult where
  | completed (returncode : Int) (stdout stderr : String) (runtime_ms : Nat)
  | timedOut
  | launchError (msg : String)
deriving DecidableEq, Repr

/-- The external world as seen by one `execute_all` run.  `runProc i t` is
the outcome of the child process for the `i`-th test case when launched
with a timeout of `t` milliseconds; `compileProc` is the outcome of the
compiler subprocess (consulted only for compiled languages); `exn = some
(k, e)` means an unexpected infrastructure exception with text `e` is
raised inside the `try` block after `k` test iterations have completed
(only reachable when compilation succeeded, since the compilation-error
path returns before the loop); `now` is the wall clock used for
`timezone.now()`. -/
structure Env where
  compileProc : ProcResult
  runProc : Nat → Nat → ProcResult
  exn : Option (Nat × String)
  now : Nat

/-- The persistent store the pipeline reads and writes: submissions, the
append-only test results, the read-only test cases, and the problem rows
(as a total map from problem id). -/
structure DB where
  submissions : List Submission
  testResults : List SubmissionTestResult
  testCases : List TestCase
  problems : Nat → Problem

/-- Python's falsy-string `or`: `a or b` is `a` when `a` is nonempty. -/
def orElseStr (a b : String) : String :=
  if a = "" then b else a

/-- Python `str.strip()` whitespace predicate (space, tab, newline,
carriage return, vertical tab, form feed). -/
def isPyWs (c : Char) : Bool :=
  c = ' ' || c = '\t' || c = '\n' || c = '\r' || c = '\x0b' || c = '\x0c'

/-- Python `str.strip()`: drop leading and trailing whitespace. -/
def pyStrip (s : String) : String :=
  ⟨((s.data.dropWhile isPyWs).reverse.dropWhile isPyWs).reverse⟩

/-- Whether the language's profile has a `compile_cmd`
(`LANGUAGE_CONFIG`): Python is interpreted, the rest compile. -/
def hasCompileCmd : Lang → Bool
  | .py => false
  | _ => true

/-- The body of `CodeExecutor._compile` after the compile command has been
launched: nonzero exit code yields `stderr or stdout or "Compilation
failed"`, `TimeoutExpired` yields `"Compilation timed out"`, any other
exception `e` yields `"Compilation error: " + str(e)`. -/
def compileOutcome : ProcResult → Option String
  | .completed rc out err _ =>
      if rc ≠ 0 then some (orElseStr err (orElseStr out "Compilation failed")) else none
  | .timedOut => some "Compilation timed out"
  | .launchError e => some ("Compilation error: " ++ e)

/-- `CodeExecutor._compile`: returns `none` immediately for interpreted
languages, otherwise the compiler subprocess outcome decides. -/
def compileStep (lang : Lang) (proc : ProcResult) : Option String :=
  if hasCompileCmd lang then compileOutcome proc else none

/-- `CodeExecutor._run_test`: the child process is launched with
`timeout = time_limit + 0.5` seconds (`time_limit_ms + 500` in ms).
Nonzero exit code gives `rte` with the captured stdout as actual output
and stderr as error text; zero exit code strips both actual and expected
output and compares, giving `accepted` or `wrong_answer` (with the
stripped actual output retained); `TimeoutExpired` gives `tle` with
runtime reported as `int(time_limit * 1000)`; any other exception gives
`rte` with the exception text. -/
def runTest (proc : Nat → ProcResult) (time_limit_ms : Nat) (tc : TestCase) :
    ExecutionResult :=
  match proc (time_limit_ms + 500) with
  | .completed rc out err rt =>
      if rc ≠ 0 then
        { status := .rte, actual_output := out, error_message := err, runtime_ms := rt }
      else
        let actual := pyStrip out
        let expected := pyStrip tc.expected_output
        if actual = expected then
          { status := .accepted, actual_output := actual, runtime_ms := rt }
        else
          { status := .wrong_answer, actual_output := actual, runtime_ms := rt }
  | .timedOut => { status := .tle, runtime_ms := time_limit_ms }
  | .launchError e => { status := .rte, error_message := e }

/-- Insert a test case into a list already sorted by `order`, keeping the
sort stable. -/
def insertByOrder (tc : TestCase) : List TestCase → List TestCase
  | [] => [tc]
  | x :: xs => if tc.order ≤ x.order then tc :: x :: xs else x :: insertByOrder tc xs

/-- Stable insertion sort by the `order` field: the iteration order of
`TestCase.objects.filter(problem=...).order_by('order')`. -/
def sortByOrder : List TestCase → List TestCase
  | [] => []
  | x :: xs => insertByOrder x (sortByOrder xs)

/-- The ordered test-case sequence the executor iterates for a problem. -/
def orderedTests (db : DB) (problemId : Nat) : List TestCase :=
  sortByOrder (db.testCases.filter (fun tc => tc.problem = problemId))

/-- `submission.save()`: upsert the row by primary key. -/
def saveSub (db : DB) (s : Submission) : DB :=
  { db with submissions := s :: db.submissions.filter (fun x => ¬ x.id = s.id) }

/-- The record created by `SubmissionTestResult.objects.create(...)` in the
test loop. -/
def mkTestResult (subId : Nat) (tc : TestCase) (r : ExecutionResult) :
    SubmissionTestResult :=
  { submission := subId, test_case := tc.id, status := r.status,
    actual_output := r.actual_output, runtime_ms := r.runtime_ms,
    memory_kb := r.memory_kb, error_message := r.error_message }

/-- The test loop of `execute_all` (lines 109-132): run each test case,
persist a `SubmissionTestResult`, accumulate total runtime, count accepted
outcomes, and let the first non-accepted outcome fix the final status.
`i` is the loop index (used to address the environment's per-test process
outcome). -/
def runLoop (env : Env) (tl : Nat) (subId : Nat) :
    List TestCase → Nat → DB → Nat → SubmissionStatus → Nat →
    DB × Nat × SubmissionStatus × Nat
  | [], _, db, passed, finalStatus, totalRuntime => (db, passed, finalStatus, totalRuntime)
  | tc :: rest, i, db, passed, finalStatus, totalRuntime =>
      let result := runTest (env.runProc i) tl tc
      let db := { db with testResults := db.testResults ++ [mkTestResult subId tc result] }
      let totalRuntime := totalRuntime + result.runtime_ms
      if result.status = .accepted then
        runLoop env tl subId rest (i + 1) db (passed + 1) finalStatus totalRuntime
      else
        let finalStatus := if finalStatus = .accepted then result.status else finalStatus
        runLoop env tl subId rest (i + 1) db passed finalStatus totalRuntime

/-- The existence check inside `CodeExecutor._update_problem_stats`:
`Submission.objects.filter(user=..., problem=..., status=ACCEPTED)
.exclude(id=...).exists()`. -/
def priorAccepted (db : DB) (sub : Submission) : Bool :=
  db.submissions.any (fun s =>
    s.user = sub.user && s.problem = sub.problem &&
    s.status = SubmissionStatus.accepted && ¬ s.id = sub.id)

/-- `CodeExecutor._update_problem_stats`: unconditionally increment
`attempt_count`; when the submission was accepted, increment `solve_count`
only if no other accepted submission by the same user for the same problem
exists (`priorAccepted`).  At the point of the call, the current
submission has already been saved with its final status, which is why the
source excludes its own id from the existence check. -/
def updateProblemStats (db : DB) (sub : Submission) (isAccepted : Bool) : DB :=
  let p := db.problems sub.problem
  let p := { p with attempt_count := p.attempt_count + 1 }
  let p := if isAccepted && !priorAccepted db sub then
    { p with solve_count := p.solve_count + 1 } else p
  { db with problems := fun i => if i = sub.problem then p else db.problems i }

/-- `CodeExecutor.execute_all`: mark the submission running; compile if
required, short-circuiting to a `ce` verdict with no test run on failure;
otherwise run every test case in order, persist per-test results, save the
aggregated verdict, and update the problem counters.  An unexpected
infrastructure exception (`env.exn = some (k, e)`) interrupts the `try`
block after `k` completed test iterations and is caught at lines 150-155,
which downgrade the submission to an `rte` verdict with the exception text
and set `judged_at`. -/
def executeAll (env : Env) (db0 : DB) (sub0 : Submission) : DB :=
  let subR := { sub0 with status := SubmissionStatus.running }
  let db := saveSub db0 subR
  let tcs := orderedTests db sub0.problem
  let total := tcs.length
  let tl := (db0.problems sub0.problem).time_limit_ms
  match compileStep sub0.language env.compileProc with
  | some msg =>
      saveSub db { subR with
        status := .ce, error_message := msg,
        tests_total := total, tests_passed := 0, judged_at := some env.now }
  | none =>
      match env.exn with
      | some (k, e) =>
          let (db1, _, _, _) := runLoop env tl sub0.id (tcs.take k) 0 db 0 .accepted 0
          saveSub db1 { subR with
            status := .rte, error_message := e, judged_at := some env.now }
      | none =>
          let (db1, passed, finalStatus, totalRuntime) :=
            runLoop env tl sub0.id tcs 0 db 0 .accepted 0
          let subF := { subR with
            status := finalStatus, tests_passed := passed, tests_total := total,
            runtime_ms := totalRuntime, judged_at := some env.now }
          let db2 := saveSub db1 subF
          updateProblemStats db2 subF (finalStatus = .accepted)

/-- The per-test `ExecutionResult` sequence produced by the loop starting
at loop index `i`. -/
def perTest (env : Env) (tl : Nat) : Nat → List TestCase → List ExecutionResult
  | _, [] => []
  | i, tc :: rest => runTest (env.runProc i) tl tc :: perTest env tl (i + 1) rest

/-- Spec-side aggregator: the verdict of the first non-accepted per-test
outcome, or `accepted` when every test passed. -/
def firstNonAccepted (rs : List ExecutionResult) : SubmissionStatus :=
  match rs.find? (fun r => ¬ r.status = SubmissionStatus.accepted) with
  | some r => r.status
  | none => .accepted

/-- Spec-side count of accepted per-test outcomes. -/
def countAccepted (rs : List ExecutionResult) : Nat :=
  rs.countP (fun r => r.status = SubmissionStatus.accepted)

/-- Spec-side cumulative runtime: sum of the per-test runtimes. -/
def sumRuntime (rs : List ExecutionResult) : Nat :=
  (rs.map (fun r => r.runtime_ms)).sum

/-- The (unique, by `saveSub`) submission row with the given id. -/
def getSub (db : DB) (id : Nat) : Option Submission :=
  db.submissions.find? (fun s => s.id = id)

/-- The status fold of the test loop, as a function of the accumulator:
once the accumulator has left `accepted` it never changes, and while it is
`accepted` the first non-accepted outcome fixes it. -/
def aggStatus (fs : SubmissionStatus) (rs : List ExecutionResult) : SubmissionStatus :=
  if fs = .accepted then firstNonAccepted rs else fs

/-- The submission record saved at the end of a normal (build ok, no
internal exception) run: final verdict, passed/total counts, cumulative
runtime and `judged_at`. -/
def finalSub (env : Env) (db : DB) (sub : Submission) : Submission :=
  let tcs := orderedTests db sub.problem
  let rs := perTest env ((db.problems sub.problem).time_limit_ms) 0 tcs
  { sub with
    status := firstNonAccepted rs, tests_passed := countAccepted rs,
    tests_total := tcs.length, runtime_ms := sumRuntime rs,
    judged_at := some env.now }

/-! Concrete fixtures used by the closed witness and counterexample
theorems below. -/

/-- A problem table where every problem has a 2-second time limit and
fresh counters. -/
def problemsW : Nat → Problem :=
  fun i => { id := i, time_limit_ms := 2000, solve_count := 0, attempt_count := 0 }

/-- Sample test case: input `"2 3"`, expected output `"5"`, order 0. -/
def tcA : TestCase :=
  { id := 10, problem := 1, input_data := "2 3", expected_output := "5",
    is_sample := true, order := 0 }

/-- Hidden test case: expected output `"y\n"`, order 1. -/
def tcB : TestCase :=
  { id := 11, problem := 1, input_data := "x", expected_output := "y\n",
    is_sample := false, order := 1 }

/-- A fresh pending submission for problem 1 by user 7. -/
def subW1 : Submission :=
  { id := 1, user := 7, problem := 1, language := .py, code := "print(5)",
    status := .pending, runtime_ms := 0, error_message := "",
    tests_passed := 0, tests_total := 0, judged_at := none }

/-- A second pending submission by the same user for the same problem. -/
def subW2 : Submission :=
  { subW1 with id := 2 }

/-- A pending C++ submission for problem 1. -/
def subCpp : Submission :=
  { subW1 with id := 3, language := .cpp }

/-- A database with two test cases for problem 1 and nothing else. -/
def dbW2 : DB :=
  { submissions := [], testResults := [], testCases := [tcA, tcB],
    problems := problemsW }

/-- A database with a single test case for problem 1. -/
def dbW1 : DB :=
  { dbW2 with testCases := [tcA] }

/-- A database with no test cases at all. -/
def dbW0 : DB :=
  { dbW2 with testCases := [] }

/-- An environment in which compilation succeeds, no infrastructure
exception occurs, the first test prints `"bad"` and the second prints
`"y"`. -/
def envW1 : Env :=
  { compileProc := .completed 0 "" "" 0,
    runProc := fun i _ => if i = 0 then .completed 0 "bad" "" 5
                          else .completed 0 "y" "" 7,
    exn := none, now := 99 }

/-- An environment in which every test prints the accepted answer `"5"`. -/
def envAC : Env :=
  { envW1 with runProc := fun _ _ => .completed 0 "5" "" 4 }

/-- An environment in which the compiler exits with code 1 and the
diagnostics `"boom"` on stderr. -/
def envCE : Env :=
  { envW1 with compileProc := .completed 1 "" "boom" 0 }

/-- An environment in which an infrastructure exception with text
`"db down"` fires after the first test iteration. -/
def envEX : Env :=
  { envW1 with exn := some (1, "db down") }

/-- An environment in which the child process times out on every test. -/
def envTO : Env :=
  { envW1 with runProc := fun _ _ => .timedOut }

/-! Helper lemmas. -/

theorem pyStrip_append_newline (s : String) : pyStrip (s ++ "\n") = pyStrip s := by
  have hdata : (s ++ "\n").data = s.data ++ ['\n'] := by
    simp [String.data_append]
  unfold pyStrip
  rw [hdata, List.dropWhile_append]
  by_cases h : (s.data.dropWhile isPyWs).isEmpty
  · rw [if_pos h]
    rw [List.isEmpty_iff] at h
    rw [h]
    rfl
  · rw [if_neg h]
    rw [List.reverse_append]
    have hnl : List.reverse ['\n'] = ['\n'] := rfl
    rw [hnl]
    have hws : List.dropWhile isPyWs ('\n' :: (s.data.dropWhile isPyWs).reverse) =
        List.dropWhile isPyWs (s.data.dropWhile isPyWs).reverse := by
      rw [List.dropWhile_cons]
      rfl
    rw [List.singleton_append, hws]

theorem runTest_status_cases (proc : Nat → ProcResult) (tl : Nat) (tc : TestCase) :
    (runTest proc tl tc).status = .accepted ∨ (runTest proc tl tc).status = .wrong_answer ∨
    (runTest proc tl tc).status = .tle ∨ (runTest proc tl tc).status = .rte := by
  unfold runTest
  cases proc (tl + 500) with
  | completed rc out err rt =>
    by_cases h : rc = 0
    · by_cases h2 : pyStrip out = pyStrip tc.expected_output <;> simp [h, h2]
    · simp [h]
  | timedOut => simp
  | launchError e => simp

theorem firstNonAccepted_cases (rs : List ExecutionResult) :
    firstNonAccepted rs = .accepted ∨ ∃ r, r ∈ rs ∧ firstNonAccepted rs = r.status := by
  unfold firstNonAccepted
  cases h : rs.find? (fun r => ¬ r.status = SubmissionStatus.accepted) with
  | none => exact Or.inl rfl
  | some r => exact Or.inr ⟨r, List.mem_of_find?_eq_some h, rfl⟩

theorem getSub_saveSub (db : DB) (s : Submission) :
    getSub (saveSub db s) s.id = some s := by
  simp [getSub, saveSub]

theorem perTest_length (env : Env) (tl : Nat) :
    ∀ (tcs : List TestCase) (i : Nat), (perTest env tl i tcs).length = tcs.length := by
  intro tcs
  induction tcs with
  | nil => intro i; rfl
  | cons tc rest ih => intro i; simp [perTest, ih]

theorem aggStatus_nil (fs : SubmissionStatus) : aggStatus fs [] = fs := by
  unfold aggStatus firstNonAccepted
  by_cases h : fs = SubmissionStatus.accepted <;> simp [h]

theorem aggStatus_cons_accepted (fs : SubmissionStatus) (r : ExecutionResult)
    (rs : List ExecutionResult) (h : r.status = .accepted) :
    aggStatus fs (r :: rs) = aggStatus fs rs := by
  unfold aggStatus firstNonAccepted
  by_cases hfs : fs = SubmissionStatus.accepted <;> simp [hfs, h]

theorem aggStatus_cons_failed (fs : SubmissionStatus) (r : ExecutionResult)
    (rs : List ExecutionResult) (h : ¬ r.status = .accepted) :
    aggStatus fs (r :: rs) = if fs = .accepted then r.status else fs := by
  unfold aggStatus firstNonAccepted
  by_cases hfs : fs = SubmissionStatus.accepted <;> simp [hfs, h]

theorem countAccepted_cons (r : ExecutionResult) (rs : List ExecutionResult) :
    countAccepted (r :: rs) =
      countAccepted rs + if r.status = .accepted then 1 else 0 := by
  simp [countAccepted, List.countP_cons]

theorem sumRuntime_cons (r : ExecutionResult) (rs : List ExecutionResult) :
    sumRuntime (r :: rs) = r.runtime_ms + sumRuntime rs := by
  simp [sumRuntime]

theorem runLoop_eq (env : Env) (tl : Nat) (subId : Nat) :
    ∀ (tcs : List TestCase) (i : Nat) (db : DB) (p : Nat) (fs : SubmissionStatus) (rt : Nat),
    runLoop env tl subId tcs i db p fs rt =
      ({ db with testResults := db.testResults ++
          List.zipWith (mkTestResult subId) tcs (perTest env tl i tcs) },
       p + countAccepted (perTest env tl i tcs),
       aggStatus fs (perTest env tl i tcs),
       rt + sumRuntime (perTest env tl i tcs)) := by
  intro tcs
  induction tcs with
  | nil =>
    intro i db p fs rt
    simp [runLoop, perTest, countAccepted, sumRuntime, aggStatus_nil]
  | cons tc rest ih =>
    intro i db p fs rt
    have hpt : perTest env tl i (tc :: rest) =
        runTest (env.runProc i) tl tc :: perTest env tl (i + 1) rest := rfl
    by_cases h : (runTest (env.runProc i) tl tc).status = .accepted
    · rw [runLoop, if_pos h, ih]
      rw [hpt]
      simp only [Prod.mk.injEq]
      refine ⟨?_, ?_, ?_, ?_⟩
      · simp [List.zipWith, List.append_assoc]
      · rw [countAccepted_cons, if_pos h]
        omega
      · rw [aggStatus_cons_accepted _ _ _ h]
      · rw [sumRuntime_cons]
        omega
    · rw [runLoop, if_neg h, ih]
      rw [hpt]
      simp only [Prod.mk.injEq]
      refine ⟨?_, ?_, ?_, ?_⟩
      · simp [List.zipWith, List.append_assoc]
      · rw [countAccepted_cons, if_neg h]
        omega
      · rw [aggStatus_cons_failed _ _ _ h]
        by_cases hfs : fs = SubmissionStatus.accepted
        · subst hfs
          simp [aggStatus, h]
        · simp [aggStatus, hfs]
      · rw [sumRuntime_cons]
        omega

theorem aggStatus_accepted (rs : List ExecutionResult) :
    aggStatus .accepted rs = firstNonAccepted rs := by
  unfold aggStatus
  rw [if_pos rfl]

theorem executeAll_ce (env : Env) (db : DB) (sub : Submission) (msg : String)
    (hc : compileStep sub.language env.compileProc = some msg) :
    executeAll env db sub =
      saveSub (saveSub db { sub with status := .running })
        { sub with
          status := .ce, error_message := msg,
          tests_total := (orderedTests db sub.problem).length, tests_passed := 0,
          judged_at := some env.now } := by
  simp only [executeAll, hc]
  rfl

theorem executeAll_exn (env : Env) (db : DB) (sub : Submission) (k : Nat) (e : String)
    (hc : compileStep sub.language env.compileProc = none)
    (he : env.exn = some (k, e)) :
    executeAll env db sub =
      saveSub
        { saveSub db { sub with status := .running } with
          testResults := db.testResults ++ List.zipWith (mkTestResult sub.id)
            ((orderedTests db sub.problem).take k)
            (perTest env ((db.problems sub.problem).time_limit_ms) 0
              ((orderedTests db sub.problem).take k)) }
        { sub with
          status := .rte, error_message := e, judged_at := some env.now } := by
  simp only [executeAll, hc, he]
  rw [runLoop_eq]
  rfl

theorem executeAll_normal (env : Env) (db : DB) (sub : Submission)
    (hc : compileStep sub.language env.compileProc = none)
    (he : env.exn = none) :
    executeAll env db sub =
      updateProblemStats
        (saveSub
          { saveSub db { sub with status := .running } with
            testResults := db.testResults ++ List.zipWith (mkTestResult sub.id)
              (orderedTests db sub.problem)
              (perTest env ((db.problems sub.problem).time_limit_ms) 0
                (orderedTests db sub.problem)) }
          (finalSub env db sub))
        (finalSub env db sub)
        (firstNonAccepted (perTest env ((db.problems sub.problem).time_limit_ms) 0
            (orderedTests db sub.problem)) = .accepted) := by
  simp only [executeAll, hc, he]
  rw [runLoop_eq]
  simp only [Nat.zero_add, aggStatus_accepted]
  rfl

theorem getSub_saveSub_of_id (db : DB) (s : Submission) (i : Nat) (h : s.id = i) :
    getSub (saveSub db s) i = some s := by
  subst h
  exact getSub_saveSub db s

theorem getSub_updateProblemStats (db : DB) (sub : Submission) (b : Bool) (i : Nat) :
    getSub (updateProblemStats db sub b) i = getSub db i := rfl

theorem updateProblemStats_testResults (db : DB) (sub : Submission) (b : Bool) :
    (updateProblemStats db sub b).testResults = db.testResults := rfl

theorem updateProblemStats_attempt (db : DB) (sub : Submission) (b : Bool)
    (i : Nat) (hi : i = sub.problem) :
    ((updateProblemStats db sub b).problems i).attempt_count =
      (db.problems i).attempt_count + 1 := by
  subst hi
  unfold updateProblemStats
  by_cases h : (b && !priorAccepted db sub) = true <;> simp [h]

theorem updateProblemStats_solve (db : DB) (sub : Submission) (b : Bool)
    (i : Nat) (hi : i = sub.problem) :
    ((updateProblemStats db sub b).problems i).solve_count =
      if b && !priorAccepted db sub then (db.problems i).solve_count + 1
      else (db.problems i).solve_count := by
  subst hi
  unfold updateProblemStats
  by_cases h : (b && !priorAccepted db sub) = true <;> simp [h]

theorem insertByOrder_length (tc : TestCase) :
    ∀ l : List TestCase, (insertByOrder tc l).length = l.length + 1 := by
  intro l
  induction l with
  | nil => rfl
  | cons x xs ih =>
    unfold insertByOrder
    by_cases h : tc.order ≤ x.order
    · simp [h]
    · simp [h, ih]

theorem sortByOrder_length :
    ∀ l : List TestCase, (sortByOrder l).length = l.length := by
  intro l
  induction l with
  | nil => rfl
  | cons x xs ih => simp [sortByOrder, insertByOrder_length, ih]

theorem orderedTests_length (db : DB) (pid : Nat) :
    (orderedTests db pid).length =
      (db.testCases.filter (fun tc => tc.problem = pid)).length := by
  unfold orderedTests
  exact sortByOrder_length _

theorem mkTestResult_status (subId : Nat) (tc : TestCase) (r : ExecutionResult) :
    (mkTestResult subId tc r).status = r.status := rfl

theorem runTest_status_not_special (proc : Nat → ProcResult) (tl : Nat) (tc : TestCase) :
    ¬ (runTest proc tl tc).status = SubmissionStatus.mle ∧
    ¬ (runTest proc tl tc).status = SubmissionStatus.pending ∧
    ¬ (runTest proc tl tc).status = SubmissionStatus.running ∧
    ¬ (runTest proc tl tc).status = SubmissionStatus.ce := by
  rcases runTest_status_cases proc tl tc with h | h | h | h <;> simp [h]

theorem perTest_mem_runTest (env : Env) (tl : Nat) :
    ∀ (tcs : List TestCase) (i : Nat) (r : ExecutionResult),
      r ∈ perTest env tl i tcs →
      ∃ j tc, r = runTest (env.runProc j) tl tc := by
  intro tcs
  induction tcs with
  | nil => intro i r hr; simp [perTest] at hr
  | cons tc rest ih =>
    intro i r hr
    rcases List.mem_cons.mp hr with h | h
    · exact ⟨i, tc, h⟩
    · exact ih (i + 1) r h

theorem zipWith_mkTestResult_mem (subId : Nat) (env : Env) (tl : Nat) :
    ∀ (tcs : List TestCase) (i : Nat) (x : SubmissionTestResult),
      x ∈ List.zipWith (mkTestResult subId) tcs (perTest env tl i tcs) →
      ∃ j tc, x = mkTestResult subId tc (runTest (env.runProc j) tl tc) := by
  intro tcs
  induction tcs with
  | nil => intro i x hx; simp at hx
  | cons tc rest ih =>
    intro i x hx
    rcases List.mem_cons.mp hx with h | h
    · exact ⟨i, tc, h⟩
    · exact ih (i + 1) x h

theorem zipWith_mkTestResult_map_test_case (subId : Nat) (env : Env) (tl : Nat) :
    ∀ (tcs : List TestCase) (i : Nat),
      (List.zipWith (mkTestResult subId) tcs (perTest env tl i tcs)).map
        (fun tr => tr.test_case) = tcs.map (fun tc => tc.id) := by
  intro tcs
  induction tcs with
  | nil => intro i; rfl
  | cons tc rest ih => intro i; simp [perTest, mkTestResult, ih]

theorem zipWith_mkTestResult_map_status (subId : Nat) (env : Env) (tl : Nat) :
    ∀ (tcs : List TestCase) (i : Nat),
      (List.zipWith (mkTestResult subId) tcs (perTest env tl i tcs)).map
        (fun tr => tr.status) =
      (perTest env tl i tcs).map (fun r => r.status) := by
  intro tcs
  induction tcs with
  | nil => intro i; rfl
  | cons tc rest ih => intro i; simp [perTest, mkTestResult, ih]

theorem zipWith_mkTestResult_length (subId : Nat) (env : Env) (tl : Nat) :
    ∀ (tcs : List TestCase) (i : Nat),
      (List.zipWith (mkTestResult subId) tcs (perTest env tl i tcs)).length =
        tcs.length := by
  intro tcs
  induction tcs with
  | nil => intro i; rfl
  | cons tc rest ih => intro i; simp [perTest, ih]

theorem zipWith_mkTestResult_submission (subId : Nat) (env : Env) (tl : Nat) :
    ∀ (tcs : List TestCase) (i : Nat) (x : SubmissionTestResult),
      x ∈ List.zipWith (mkTestResult subId) tcs (perTest env tl i tcs) →
      x.submission = subId := by
  intro tcs i x hx
  rcases zipWith_mkTestResult_mem subId env tl tcs i x hx with ⟨j, tc, h⟩
  rw [h]
  rfl

theorem priorAccepted_mem_true (db : DB) (sub w : Submission)
    (hw : w ∈ db.submissions) (hu : w.user = sub.user) (hp : w.problem = sub.problem)
    (hs : w.status = SubmissionStatus.accepted) (hid : ¬ w.id = sub.id) :
    priorAccepted db sub = true := by
  unfold priorAccepted
  rw [List.any_eq_true]
  exact ⟨w, hw, by simp [hu, hp, hs, hid]⟩

theorem mem_saveSub (db : DB) (s x : Submission) (hx : x ∈ db.submissions)
    (h : ¬ x.id = s.id) : x ∈ (saveSub db s).submissions := by
  unfold saveSub
  simp [List.mem_filter, hx, h]

theorem priorAccepted_normal_of_false (env : Env) (db : DB) (sub : Submission)
    (h : priorAccepted db sub = false) :
    priorAccepted
      (saveSub
        { saveSub db { sub with status := .running } with
          testResults := db.testResults ++ List.zipWith (mkTestResult sub.id)
            (orderedTests db sub.problem)
            (perTest env ((db.problems sub.problem).time_limit_ms) 0
              (orderedTests db sub.problem)) }
        (finalSub env db sub))
      (finalSub env db sub) = false := by
  unfold priorAccepted at h ⊢
  rw [List.any_eq_false] at h ⊢
  intro x hx
  have hx2 : x = finalSub env db sub ∨
      x ∈ ({ sub with status := SubmissionStatus.running } ::
        db.submissions.filter (fun y => ¬ y.id = sub.id)).filter
          (fun y => ¬ y.id = sub.id) := List.mem_cons.mp hx
  rcases hx2 with h1 | h1
  · subst h1
    simp [finalSub]
  · have h2 := List.mem_filter.mp h1
    rcases List.mem_cons.mp h2.1 with h3 | h3
    · subst h3
      simp
    · have h4 := (List.mem_filter.mp h3).1
      exact h x h4

theorem saveSub_testResults (db : DB) (s : Submission) :
    (saveSub db s).testResults = db.testResults := rfl

theorem executeAll_normal_testResults (env : Env) (db : DB) (sub : Submission)
    (hc : compileStep sub.language env.compileProc = none)
    (he : env.exn = none) :
    (executeAll env db sub).testResults =
      db.testResults ++ List.zipWith (mkTestResult sub.id) (orderedTests db sub.problem)
        (perTest env ((db.problems sub.problem).time_limit_ms) 0
          (orderedTests db sub.problem)) := by
  rw [executeAll_normal env db sub hc he]
  rfl

theorem executeAll_exn_testResults (env : Env) (db : DB) (sub : Submission)
    (k : Nat) (e : String)
    (hc : compileStep sub.language env.compileProc = none)
    (he : env.exn = some (k, e)) :
    (executeAll env db sub).testResults =
      db.testResults ++ List.zipWith (mkTestResult sub.id)
        ((orderedTests db sub.problem).take k)
        (perTest env ((db.problems sub.problem).time_limit_ms) 0
          ((orderedTests db sub.problem).take k)) := by
  rw [executeAll_exn env db sub k e hc he]
  rfl

theorem getSub_executeAll_status (env : Env) (db : DB) (sub : Submission) :
    ∃ s, getSub (executeAll env db sub) sub.id = some s ∧
      s.judged_at = some env.now ∧
      (s.status = SubmissionStatus.ce ∨ s.status = SubmissionStatus.rte ∨
       s.status = firstNonAccepted (perTest env ((db.problems sub.problem).time_limit_ms) 0
         (orderedTests db sub.problem))) := by
  cases hc : compileStep sub.language env.compileProc with
  | some msg =>
    rw [executeAll_ce env db sub msg hc]
    exact ⟨_, getSub_saveSub_of_id _ _ _ rfl, rfl, Or.inl rfl⟩
  | none =>
    cases he : env.exn with
    | none =>
      rw [executeAll_normal env db sub hc he]
      refine ⟨finalSub env db sub, ?_, rfl, Or.inr (Or.inr rfl)⟩
      rw [getSub_updateProblemStats]
      exact getSub_saveSub_of_id _ _ _ rfl
    | some ke =>
      cases ke with
      | mk k e =>
        rw [executeAll_exn env db sub k e hc he]
        exact ⟨_, getSub_saveSub_of_id _ _ _ rfl, rfl, Or.inr (Or.inl rfl)⟩

/-! The claim theorems. -/

/-- C1: for every judged submission whose build succeeds (and which
completes without an internal infrastructure exception), the final
submission verdict equals the first non-accepted per-test verdict in test
order (ordered by the test cases' order index), or accepted if all tests
passed; `tests_passed` equals the count of accepted per-test outcomes; and
`runtime_ms` equals the sum of the per-test runtimes. -/
theorem verdict_aggregation (env : Env) (db : DB) (sub : Submission)
    (hc : compileStep sub.language env.compileProc = none)
    (he : env.exn = none) :
    ∃ s, getSub (executeAll env db sub) sub.id = some s ∧
      s.status = firstNonAccepted (perTest env ((db.problems sub.problem).time_limit_ms) 0
        (orderedTests db sub.problem)) ∧
      s.tests_passed = countAccepted (perTest env ((db.problems sub.problem).time_limit_ms) 0
        (orderedTests db sub.problem)) ∧
      s.runtime_ms = sumRuntime (perTest env ((db.problems sub.problem).time_limit_ms) 0
        (orderedTests db sub.problem)) := by
  rw [executeAll_normal env db sub hc he]
  refine ⟨finalSub env db sub, ?_, rfl, rfl, rfl⟩
  rw [getSub_updateProblemStats]
  exact getSub_saveSub_of_id _ _ _ rfl

/-- Witness for C1: with two test cases where the first prints a wrong
answer and the second the right one, the verdict is `wrong_answer`, one
test passed and the runtimes add up. -/
theorem verdict_aggregation_witness :
    ∃ s, getSub (executeAll envW1 dbW2 subW1) 1 = some s ∧
      s.status = SubmissionStatus.wrong_answer ∧ s.tests_passed = 1 ∧
      s.runtime_ms = 12 :=
  verdict_aggregation envW1 dbW2 subW1 rfl rfl

/-- C2: for a test run whose child process exits within the timeout: a
nonzero exit code yields `rte` with the captured stdout as actual output
and stderr as error text; a zero exit code compares the stripped actual
and expected outputs, yielding `accepted` when equal and `wrong_answer`
(with the stripped actual output retained) when unequal; and stripping is
insensitive to a trailing newline. -/
theorem run_test_classification (proc : Nat → ProcResult) (tl : Nat) (tc : TestCase)
    (rc : Int) (out err : String) (rt : Nat)
    (hp : proc (tl + 500) = .completed rc out err rt) :
    (¬ rc = 0 → runTest proc tl tc =
      { status := .rte, actual_output := out, error_message := err, runtime_ms := rt }) ∧
    (rc = 0 → pyStrip out = pyStrip tc.expected_output →
      runTest proc tl tc =
        { status := .accepted, actual_output := pyStrip out, runtime_ms := rt }) ∧
    (rc = 0 → ¬ pyStrip out = pyStrip tc.expected_output →
      runTest proc tl tc =
        { status := .wrong_answer, actual_output := pyStrip out, runtime_ms := rt }) ∧
    pyStrip (out ++ "\n") = pyStrip out := by
  refine ⟨?_, ?_, ?_, pyStrip_append_newline out⟩
  · intro h
    unfold runTest
    rw [hp]
    simp [h]
  · intro h h2
    unfold runTest
    rw [hp]
    simp [h, h2]
  · intro h h2
    unfold runTest
    rw [hp]
    simp [h, h2]

/-- Witness for C2: a run printing `"5\n"` against expected `"5"` is
accepted despite the trailing newline; a run exiting 1 is a runtime
error carrying stdout and stderr. -/
theorem run_test_classification_witness :
    runTest (fun _ => ProcResult.completed 0 "5\n" "" 3) 2000 tcA =
      { status := SubmissionStatus.accepted, actual_output := "5", runtime_ms := 3 } ∧
    runTest (fun _ => ProcResult.completed 1 "o" "e" 4) 2000 tcA =
      { status := SubmissionStatus.rte, actual_output := "o", error_message := "e",
        runtime_ms := 4 } := by
  constructor
  · exact (run_test_classification (fun _ => .completed 0 "5\n" "" 3) 2000 tcA
      0 "5\n" "" 3 rfl).2.1 rfl (by decide)
  · exact (run_test_classification (fun _ => .completed 1 "o" "e" 4) 2000 tcA
      1 "o" "e" 4 rfl).1 (by decide)

/-- C3: a submission whose compilation fails short-circuits: no test
result is created, the final verdict is `ce` with the compiler
diagnostics as error text, `tests_passed = 0`, `tests_total` is the
problem's full test case count, and `judged_at` is set. -/
theorem compilation_error_short_circuits (env : Env) (db : DB) (sub : Submission)
    (msg : String) (hc : compileStep sub.language env.compileProc = some msg) :
    (∃ s, getSub (executeAll env db sub) sub.id = some s ∧
      s.status = SubmissionStatus.ce ∧ s.error_message = msg ∧ s.tests_passed = 0 ∧
      s.tests_total = (db.testCases.filter (fun tc => tc.problem = sub.problem)).length ∧
      s.judged_at = some env.now) ∧
    (executeAll env db sub).testResults = db.testResults := by
  rw [executeAll_ce env db sub msg hc]
  constructor
  · refine ⟨_, getSub_saveSub_of_id _ _ _ rfl, rfl, rfl, rfl, ?_, rfl⟩
    exact orderedTests_length db sub.problem
  · rfl

/-- Witness for C3: a C++ submission whose compiler exits 1 with stderr
`"boom"` over a one-test problem gets verdict `ce`, totals 0/1, and no
test results. -/
theorem compilation_error_short_circuits_witness :
    (∃ s, getSub (executeAll envCE dbW1 subCpp) 3 = some s ∧
      s.status = SubmissionStatus.ce ∧ s.error_message = "boom" ∧ s.tests_passed = 0 ∧
      s.tests_total = 1 ∧ s.judged_at = some 99) ∧
    (executeAll envCE dbW1 subCpp).testResults = [] :=
  compilation_error_short_circuits envCE dbW1 subCpp "boom" rfl

/-- C7: when the timeout fires for a test, the verdict is `tle` with the
reported runtime equal to the configured time limit in milliseconds; and
the child process outcome is only ever consulted at the enforced timeout
of the configured time limit plus the fixed 500 ms grace margin. -/
theorem timeout_gives_tle (proc : Nat → ProcResult) (tl : Nat) (tc : TestCase)
    (h : proc (tl + 500) = .timedOut) :
    runTest proc tl tc = { status := SubmissionStatus.tle, runtime_ms := tl } ∧
    ∀ proc2 : Nat → ProcResult, proc2 (tl + 500) = proc (tl + 500) →
      runTest proc2 tl tc = runTest proc tl tc := by
  constructor
  · unfold runTest
    rw [h]
  · intro proc2 h2
    unfold runTest
    rw [h2]

/-- Witness for C7: a timed-out run under a 2-second limit reports `tle`
with runtime 2000 ms. -/
theorem timeout_gives_tle_witness :
    runTest (fun _ => ProcResult.timedOut) 2000 tcA =
      { status := SubmissionStatus.tle, runtime_ms := 2000 } :=
  (timeout_gives_tle (fun _ => ProcResult.timedOut) 2000 tcA rfl).1

/-- C4 (amended): `attempt_count` is incremented exactly once for every
judged submission whose build succeeds and which completes without an
internal exception; on the `CompilationError` short-circuit path and on
the internal-exception path, `attempt_count` is unchanged. -/
theorem attempt_count_amended (env : Env) (db : DB) (sub : Submission) :
    (compileStep sub.language env.compileProc = none → env.exn = none →
      ((executeAll env db sub).problems sub.problem).attempt_count =
        (db.problems sub.problem).attempt_count + 1) ∧
    (∀ msg, compileStep sub.language env.compileProc = some msg →
      ((executeAll env db sub).problems sub.problem).attempt_count =
        (db.problems sub.problem).attempt_count) ∧
    (∀ k e, env.exn = some (k, e) → compileStep sub.language env.compileProc = none →
      ((executeAll env db sub).problems sub.problem).attempt_count =
        (db.problems sub.problem).attempt_count) := by
  refine ⟨?_, ?_, ?_⟩
  · intro hc he
    rw [executeAll_normal env db sub hc he]
    exact updateProblemStats_attempt _ _ _ _ rfl
  · intro msg hc
    rw [executeAll_ce env db sub msg hc]
    rfl
  · intro k e he hc
    rw [executeAll_exn env db sub k e hc he]
    rfl

/-- Counterexample for C4 as stated: the C++ submission `subCpp` whose
compilation fails is judged (`judged_at` is set, verdict `ce`), yet the
problem's `attempt_count` is not incremented: `_update_problem_stats` is
only reached on the normal completion path. -/
theorem attempt_count_counterexample :
    (∃ s, getSub (executeAll envCE dbW1 subCpp) 3 = some s ∧
      s.status = SubmissionStatus.ce ∧ s.judged_at = some 99) ∧
    ((executeAll envCE dbW1 subCpp).problems 1).attempt_count = 0 ∧
    ¬ ((executeAll envCE dbW1 subCpp).problems 1).attempt_count =
        (dbW1.problems 1).attempt_count + 1 := by
  refine ⟨⟨_, rfl, rfl, rfl⟩, rfl, by decide⟩

/-- Witness for C4 (amended): a normal accepted run increments
`attempt_count` to 1; a compilation-error run and an internal-exception
run leave it at 0. -/
theorem attempt_count_amended_witness :
    ((executeAll envAC dbW0 subW1).problems 1).attempt_count = 1 ∧
    ((executeAll envCE dbW1 subCpp).problems 1).attempt_count = 0 ∧
    ((executeAll envEX dbW2 subW1).problems 1).attempt_count = 0 := by
  refine ⟨?_, ?_, ?_⟩
  · exact (attempt_count_amended envAC dbW0 subW1).1 rfl rfl
  · exact (attempt_count_amended envCE dbW1 subCpp).2.1 "boom" rfl
  · exact (attempt_count_amended envEX dbW2 subW1).2.2 1 "db down" rfl rfl

/-- C6 (amended): for every judged submission whose build succeeds and
which completes without an internal exception, exactly one `TestResult`
is created per test case of the problem, in test order, carrying that
test's outcome and the submission's id. -/
theorem test_results_amended (env : Env) (db : DB) (sub : Submission)
    (hc : compileStep sub.language env.compileProc = none)
    (he : env.exn = none) :
    (executeAll env db sub).testResults.length =
      db.testResults.length + (orderedTests db sub.problem).length ∧
    ((executeAll env db sub).testResults.drop db.testResults.length).map
        (fun tr => tr.test_case) =
      (orderedTests db sub.problem).map (fun tc => tc.id) ∧
    ((executeAll env db sub).testResults.drop db.testResults.length).map
        (fun tr => tr.status) =
      (perTest env ((db.problems sub.problem).time_limit_ms) 0
        (orderedTests db sub.problem)).map (fun r => r.status) ∧
    ∀ tr ∈ (executeAll env db sub).testResults.drop db.testResults.length,
      tr.submission = sub.id := by
  rw [executeAll_normal_testResults env db sub hc he]
  rw [List.drop_left]
  refine ⟨?_, ?_, ?_, ?_⟩
  · rw [List.length_append, zipWith_mkTestResult_length]
  · exact zipWith_mkTestResult_map_test_case _ env _ _ _
  · exact zipWith_mkTestResult_map_status _ env _ _ _
  · intro tr htr
    exact zipWith_mkTestResult_submission _ env _ _ _ tr htr

/-- Counterexample for C6 as stated: the compilation-error submission
`subCpp` is judged, but zero `TestResult` rows exist while the problem
has one test case. -/
theorem test_results_counterexample :
    (∃ s, getSub (executeAll envCE dbW1 subCpp) 3 = some s ∧
      s.judged_at = some 99) ∧
    (executeAll envCE dbW1 subCpp).testResults.length = 0 ∧
    (dbW1.testCases.filter (fun tc => tc.problem = subCpp.problem)).length = 1 := by
  exact ⟨⟨_, rfl, rfl⟩, rfl, rfl⟩

/-- Witness for C6 (amended): the two-test run stores two results, for
test cases 10 and 11 in order. -/
theorem test_results_amended_witness :
    (executeAll envW1 dbW2 subW1).testResults.length = 2 ∧
    ((executeAll envW1 dbW2 subW1).testResults.drop 0).map
      (fun tr => tr.test_case) = [10, 11] := by
  exact ⟨(test_results_amended envW1 dbW2 subW1 rfl rfl).1,
    (test_results_amended envW1 dbW2 subW1 rfl rfl).2.1⟩

/-- C8: judging always terminates with `judged_at` set and a status that
is neither `pending` nor `running`; an unexpected internal exception is
caught at the pipeline boundary and downgraded to an `rte` verdict
carrying the exception text, with `judged_at` set. -/
theorem judging_terminates (env : Env) (db : DB) (sub : Submission) :
    (∃ s, getSub (executeAll env db sub) sub.id = some s ∧
      s.judged_at = some env.now ∧
      ¬ s.status = SubmissionStatus.pending ∧
      ¬ s.status = SubmissionStatus.running) ∧
    ∀ k e, env.exn = some (k, e) →
      compileStep sub.language env.compileProc = none →
      ∃ s, getSub (executeAll env db sub) sub.id = some s ∧
        s.status = SubmissionStatus.rte ∧ s.error_message = e ∧
        s.judged_at = some env.now := by
  constructor
  · obtain ⟨s0, hget, hj, hst⟩ := getSub_executeAll_status env db sub
    have hterm : ¬ s0.status = SubmissionStatus.pending ∧
        ¬ s0.status = SubmissionStatus.running := by
      rcases hst with h | h | h
      · rw [h]; exact ⟨by simp, by simp⟩
      · rw [h]; exact ⟨by simp, by simp⟩
      · rcases firstNonAccepted_cases (perTest env
            ((db.problems sub.problem).time_limit_ms) 0
            (orderedTests db sub.problem)) with h2 | ⟨r, hr, h2⟩
        · rw [h, h2]; exact ⟨by simp, by simp⟩
        · rcases perTest_mem_runTest env _ _ 0 r hr with ⟨j, tc2, h3⟩
          rw [h, h2, h3]
          have h4 := runTest_status_not_special (env.runProc j)
            ((db.problems sub.problem).time_limit_ms) tc2
          exact ⟨h4.2.1, h4.2.2.1⟩
    exact ⟨s0, hget, hj, hterm.1, hterm.2⟩
  · intro k e he hc
    rw [executeAll_exn env db sub k e hc he]
    exact ⟨_, getSub_saveSub_of_id _ _ _ rfl, rfl, rfl, rfl⟩

/-- Witness for C8: with an infrastructure exception `"db down"` after
one test, the submission ends `rte` with that text and `judged_at` set. -/
theorem judging_terminates_witness :
    ∃ s, getSub (executeAll envEX dbW2 subW1) 1 = some s ∧
      s.status = SubmissionStatus.rte ∧ s.error_message = "db down" ∧
      s.judged_at = some 99 :=
  (judging_terminates envEX dbW2 subW1).2 1 "db down" rfl rfl

/-- C9: no execution path ever produces the `mle` verdict: starting from
a store with no `mle` test results, after judging no test result has
status `mle` and the judged submission's status is not `mle`. -/
theorem no_mle_verdict (env : Env) (db : DB) (sub : Submission)
    (h0 : ∀ tr ∈ db.testResults, ¬ tr.status = SubmissionStatus.mle) :
    (∀ tr ∈ (executeAll env db sub).testResults,
      ¬ tr.status = SubmissionStatus.mle) ∧
    ∀ s, getSub (executeAll env db sub) sub.id = some s →
      ¬ s.status = SubmissionStatus.mle := by
  constructor
  · cases hc : compileStep sub.language env.compileProc with
    | some msg =>
      rw [executeAll_ce env db sub msg hc]
      intro tr htr
      exact h0 tr htr
    | none =>
      cases he : env.exn with
      | none =>
        rw [executeAll_normal_testResults env db sub hc he]
        intro tr htr
        rcases List.mem_append.mp htr with h | h
        · exact h0 tr h
        · rcases zipWith_mkTestResult_mem _ env _ _ _ tr h with ⟨j, tc2, h3⟩
          rw [h3, mkTestResult_status]
          exact (runTest_status_not_special _ _ _).1
      | some ke =>
        cases ke with
        | mk k e =>
          rw [executeAll_exn_testResults env db sub k e hc he]
          intro tr htr
          rcases List.mem_append.mp htr with h | h
          · exact h0 tr h
          · rcases zipWith_mkTestResult_mem _ env _ _ _ tr h with ⟨j, tc2, h3⟩
            rw [h3, mkTestResult_status]
            exact (runTest_status_not_special _ _ _).1
  · intro s hs
    obtain ⟨s0, hget, hj, hst⟩ := getSub_executeAll_status env db sub
    rw [hget] at hs
    injection hs with h
    subst h
    rcases hst with h | h | h
    · rw [h]; simp
    · rw [h]; simp
    · rcases firstNonAccepted_cases (perTest env
          ((db.problems sub.problem).time_limit_ms) 0
          (orderedTests db sub.problem)) with h2 | ⟨r, hr, h2⟩
      · rw [h, h2]; simp
      · rcases perTest_mem_runTest env _ _ 0 r hr with ⟨j, tc2, h3⟩
        rw [h, h2, h3]
        exact (runTest_status_not_special _ _ _).1

/-- Witness for C9: the judged submission of the two-test run is not
`mle`. -/
theorem no_mle_verdict_witness :
    ¬ ({ id := 1, user := 7, problem := 1, language := Lang.py,
         code := "print(5)", status := SubmissionStatus.wrong_answer,
         runtime_ms := 12, error_message := "", tests_passed := 1,
         tests_total := 2,
         judged_at := some 99 } : Submission).status = SubmissionStatus.mle := by
  have h := no_mle_verdict envW1 dbW2 subW1 (fun tr htr => by simp [dbW2] at htr)
  exact h.2 _ rfl

/-- C10: a submission to a problem with zero test cases (build ok, no
internal exception) is judged `accepted` with zero counts and runtime,
`judged_at` set, no test result created, `attempt_count` incremented, and
`solve_count` incremented when it is the user's first accepted submission
for the problem. -/
theorem zero_tests_accepted (env : Env) (db : DB) (sub : Submission)
    (hc : compileStep sub.language env.compileProc = none)
    (he : env.exn = none)
    (hz : db.testCases.filter (fun tc => tc.problem = sub.problem) = []) :
    (∃ s, getSub (executeAll env db sub) sub.id = some s ∧
      s.status = SubmissionStatus.accepted ∧ s.tests_passed = 0 ∧
      s.tests_total = 0 ∧ s.runtime_ms = 0 ∧ s.judged_at = some env.now) ∧
    (executeAll env db sub).testResults = db.testResults ∧
    ((executeAll env db sub).problems sub.problem).attempt_count =
      (db.problems sub.problem).attempt_count + 1 ∧
    (priorAccepted db sub = false →
      ((executeAll env db sub).problems sub.problem).solve_count =
        (db.problems sub.problem).solve_count + 1) := by
  have hz2 : orderedTests db sub.problem = [] := by
    unfold orderedTests
    rw [hz]
    rfl
  refine ⟨?_, ?_, ?_, ?_⟩
  · rw [executeAll_normal env db sub hc he]
    refine ⟨finalSub env db sub, ?_, ?_, ?_, ?_, ?_, rfl⟩
    · rw [getSub_updateProblemStats]
      exact getSub_saveSub_of_id _ _ _ rfl
    · simp [finalSub, hz2, perTest, firstNonAccepted]
    · simp [finalSub, hz2, perTest, countAccepted]
    · simp [finalSub, hz2]
    · simp [finalSub, hz2, perTest, sumRuntime]
  · rw [executeAll_normal_testResults env db sub hc he, hz2]
    simp [perTest]
  · rw [executeAll_normal env db sub hc he]
    exact updateProblemStats_attempt _ _ _ _ rfl
  · intro hpa
    have hfa : firstNonAccepted (perTest env ((db.problems sub.problem).time_limit_ms) 0
        (orderedTests db sub.problem)) = SubmissionStatus.accepted := by
      rw [hz2]
      rfl
    have hpa2 := priorAccepted_normal_of_false env db sub hpa
    rw [executeAll_normal env db sub hc he]
    rw [updateProblemStats_solve]
    · rw [hfa, hpa2]
      simp [saveSub]
    · rfl

/-- Witness for C10: judging a zero-test problem yields an accepted
submission with zero totals and counter increments. -/
theorem zero_tests_accepted_witness :
    (∃ s, getSub (executeAll envAC dbW0 subW1) 1 = some s ∧
      s.status = SubmissionStatus.accepted ∧ s.tests_passed = 0 ∧
      s.tests_total = 0 ∧ s.runtime_ms = 0 ∧ s.judged_at = some 99) ∧
    (executeAll envAC dbW0 subW1).testResults = [] ∧
    ((executeAll envAC dbW0 subW1).problems 1).attempt_count = 1 ∧
    ((executeAll envAC dbW0 subW1).problems 1).solve_count = 1 := by
  have h := zero_tests_accepted envAC dbW0 subW1 rfl rfl rfl
  exact ⟨h.1, h.2.1, h.2.2.1, h.2.2.2 rfl⟩

/-- C5: with sequential executions, a user's first accepted submission
for a problem increments `solve_count` by one, a second accepted
submission by the same user for the same problem leaves `solve_count`
unchanged, and both increment `attempt_count`. -/
theorem solve_count_idempotent (env1 env2 : Env) (db : DB) (sub1 sub2 : Submission)
    (hu : sub2.user = sub1.user) (hp : sub2.problem = sub1.problem)
    (hid : ¬ sub1.id = sub2.id)
    (hpa : priorAccepted db sub1 = false)
    (h1c : compileStep sub1.language env1.compileProc = none)
    (h1e : env1.exn = none)
    (h1a : firstNonAccepted (perTest env1 ((db.problems sub1.problem).time_limit_ms) 0
      (orderedTests db sub1.problem)) = SubmissionStatus.accepted)
    (h2c : compileStep sub2.language env2.compileProc = none)
    (h2e : env2.exn = none) :
    ((executeAll env1 db sub1).problems sub1.problem).solve_count =
      (db.problems sub1.problem).solve_count + 1 ∧
    ((executeAll env2 (executeAll env1 db sub1) sub2).problems sub1.problem).solve_count =
      ((executeAll env1 db sub1).problems sub1.problem).solve_count ∧
    ((executeAll env1 db sub1).problems sub1.problem).attempt_count =
      (db.problems sub1.problem).attempt_count + 1 ∧
    ((executeAll env2 (executeAll env1 db sub1) sub2).problems sub1.problem).attempt_count =
      ((executeAll env1 db sub1).problems sub1.problem).attempt_count + 1 := by
  have hpa2 := priorAccepted_normal_of_false env1 db sub1 hpa
  have hget1 : getSub (executeAll env1 db sub1) sub1.id =
      some (finalSub env1 db sub1) := by
    rw [executeAll_normal env1 db sub1 h1c h1e, getSub_updateProblemStats]
    exact getSub_saveSub_of_id _ _ _ rfl
  have hm1 : finalSub env1 db sub1 ∈ (executeAll env1 db sub1).submissions :=
    List.mem_of_find?_eq_some hget1
  refine ⟨?_, ?_, ?_, ?_⟩
  · rw [executeAll_normal env1 db sub1 h1c h1e]
    rw [updateProblemStats_solve]
    · rw [h1a, hpa2]
      simp [saveSub]
    · rfl
  · rw [executeAll_normal env2 (executeAll env1 db sub1) sub2 h2c h2e]
    rw [updateProblemStats_solve]
    · have hm2 : finalSub env1 db sub1 ∈
          (saveSub (executeAll env1 db sub1)
            { sub2 with status := SubmissionStatus.running }).submissions :=
        mem_saveSub _ _ _ hm1 hid
      have hm4 : finalSub env1 db sub1 ∈
          (saveSub
            { saveSub (executeAll env1 db sub1)
                { sub2 with status := SubmissionStatus.running } with
              testResults := (executeAll env1 db sub1).testResults ++
                List.zipWith (mkTestResult sub2.id)
                  (orderedTests (executeAll env1 db sub1) sub2.problem)
                  (perTest env2
                    (((executeAll env1 db sub1).problems sub2.problem).time_limit_ms) 0
                    (orderedTests (executeAll env1 db sub1) sub2.problem)) }
            (finalSub env2 (executeAll env1 db sub1) sub2)).submissions :=
        mem_saveSub _ _ _ hm2 hid
      have htrue := priorAccepted_mem_true _
        (finalSub env2 (executeAll env1 db sub1) sub2)
        (finalSub env1 db sub1) hm4 hu.symm hp.symm h1a hid
      rw [htrue]
      simp [saveSub]
    · exact hp.symm
  · rw [executeAll_normal env1 db sub1 h1c h1e]
    exact updateProblemStats_attempt _ _ _ _ rfl
  · rw [executeAll_normal env2 (executeAll env1 db sub1) sub2 h2c h2e]
    exact updateProblemStats_attempt _ _ _ _ hp.symm

/-- Witness for C5: two successive accepted submissions by user 7 to the
zero-test problem: solve_count ends at 1, attempt_count at 2. -/
theorem solve_count_idempotent_witness :
    ((executeAll envAC dbW0 subW1).problems 1).solve_count = 1 ∧
    ((executeAll envAC (executeAll envAC dbW0 subW1) subW2).problems 1).solve_count = 1 ∧
    ((executeAll envAC (executeAll envAC dbW0 subW1) subW2).problems 1).attempt_count = 2 := by
  have h := solve_count_idempotent envAC envAC dbW0 subW1 subW2 rfl rfl
    (by decide) rfl rfl rfl rfl rfl rfl
  refine ⟨h.1, Eq.trans h.2.1 h.1, Eq.trans h.2.2.2 ?_⟩
  rw [h.2.2.1]
  rfl

end OJ
